import Mathlib

/-!
Shallow embedding of the purple static-site compositor (src/purple.py):
the page-spec parser, the timestamp-based incremental writer, the
compositor variants (Static, Image, Blog) and the routing logic of the
Site orchestrator, together with theorems about the frozen claims.

Python idioms are embedded as follows: dicts become association lists
with insert-or-replace semantics, sets become duplicate-free lists,
mtimes become Nat, and code paths that raise exceptions return
`Except String` with the exception class name as the error value.
-/

namespace Purple

/-- Python whitespace characters, as stripped by str.rstrip and split by
str.split with no argument (ASCII range). -/
def isPySpace (c : Char) : Bool :=
  c == ' ' || c == '\t' || c == '\n' || c == '\r' ||
    c == Char.ofNat 11 || c == Char.ofNat 12

/-- Python str.rstrip: remove all trailing whitespace characters. -/
def pyRstrip (s : String) : String :=
  String.mk ((s.data.reverse.dropWhile isPySpace).reverse)

/-- A word character in the sense of the regex class used by
read_page_spec (ASCII letters, digits, underscore). -/
def isWordChar (c : Char) : Bool :=
  c.isAlphanum || c == '_'

/-- Test for the marker-line regex of read_page_spec: a colon, one or
more word characters, a colon, and nothing else. -/
def isMarkerLine (s : String) : Bool :=
  s.data.head? == some ':'
  && s.data.getLast? == some ':'
  && !((s.data.drop 1).dropLast.isEmpty)
  && (s.data.drop 1).dropLast.all isWordChar

/-- The key of a marker line: Python line[1:-1], the line without its
first and last character. -/
def markerKey (s : String) : String :=
  String.mk ((s.data.drop 1).dropLast)

/-- Python dict assignment d[k] = v on an association list: replace the
value in place if the key is present, otherwise append the new pair. -/
def dictInsert {α : Type} : List (String × α) → String → α → List (String × α)
  | [], k, v => [(k, v)]
  | (k1, v1) :: rest, k, v =>
    if k1 = k then (k, v) :: rest else (k1, v1) :: dictInsert rest k v

/-- Python dict lookup d.get(k). -/
def dictGet {α : Type} (d : List (String × α)) (k : String) : Option α :=
  List.lookup k d

/-- Python str.join with separator a newline. -/
def joinLines : List String → String
  | [] => ""
  | [l] => l
  | l :: rest => l ++ "\n" ++ joinLines rest

/-- The accumulator loop of read_page_spec: rstrip each line; a marker
line flushes the pending (key, value) block and starts the next key; any
other line is appended to the current block; a trailing key is committed
at end of input.  When the first marker arrives with no pending key, the
already accumulated value list is kept, exactly as in the source. -/
def readPageSpecLoop : List (String × String) → Option String → List String →
    List String → List (String × String)
  | spec, key, value, [] =>
    match key with
    | none => spec
    | some k => dictInsert spec k (joinLines value)
  | spec, key, value, rawLine :: rest =>
    if isMarkerLine (pyRstrip rawLine) then
      match key with
      | none => readPageSpecLoop spec (some (markerKey (pyRstrip rawLine))) value rest
      | some k =>
        readPageSpecLoop (dictInsert spec k (joinLines value))
          (some (markerKey (pyRstrip rawLine))) [] rest
    else
      readPageSpecLoop spec key (value ++ [pyRstrip rawLine]) rest

/-- read_page_spec, over the list of lines of the file. -/
def readPageSpec (lines : List String) : List (String × String) :=
  readPageSpecLoop [] none [] lines

/-- Split a character list at a separator character, keeping empty
pieces, as Python str.split(sep) does. -/
def splitByAux (p : Char → Bool) : List Char → List Char → List String
  | [], acc => [String.mk acc.reverse]
  | c :: cs, acc =>
    if p c then String.mk acc.reverse :: splitByAux p cs []
    else splitByAux p cs (c :: acc)

/-- Split a string at every character satisfying p, keeping empties. -/
def splitBy (p : Char → Bool) (s : String) : List String :=
  splitByAux p s.data []

/-- Python str.split(sep) for a one-character separator. -/
def splitOnChar (sep : Char) (s : String) : List String :=
  splitBy (fun c => c == sep) s

/-- Python str.split() with no argument: split on whitespace runs,
discarding empty fields. -/
def pySplitWhitespace (s : String) : List String :=
  (splitBy isPySpace s).filter (fun t => t != "")

/-- Python int() on a decimal digit string. -/
def parseNat? (s : String) : Option Nat :=
  if !(s.data.isEmpty) && s.data.all Char.isDigit then
    some (s.data.foldl (fun n c => n * 10 + (c.toNat - 48)) 0)
  else none

/-- Modelled external collaborator: dateutil.parser.parse restricted to
the documented YYYY-MM-DD style of dash-separated numeric dates; returns
none where the library would raise. -/
def isoParse (s : String) : Option (Nat × Nat × Nat) :=
  match splitOnChar '-' s with
  | [ys, ms, ds] =>
    match parseNat? ys, parseNat? ms, parseNat? ds with
    | some y, some m, some d =>
      if 1 ≤ m ∧ m ≤ 12 ∧ 1 ≤ d ∧ d ≤ 31 then some (y, m, d) else none
    | _, _, _ => none
  | _ => none

/-- Python format {n:02d}: zero-pad to two digits. -/
def pad2 (n : Nat) : String :=
  if n < 10 then "0" ++ toString n else toString n

/-- The slug format string of BlogCompositor.composite:
unpadded year, zero-padded month and day, dash separated. -/
def slugOf (y m d : Nat) : String :=
  toString y ++ "-" ++ pad2 m ++ "-" ++ pad2 d

/-- Python set.add on a list-represented set. -/
def setAdd (s : List String) (x : String) : List String :=
  if x ∈ s then s else s ++ [x]

/-- Python set.update on a list-represented set. -/
def setUpdate (s : List String) (xs : List String) : List String :=
  xs.foldl setAdd s

/-! ## TimestampCompositorHelper -/

/-- State of TimestampCompositorHelper: the dryrun and verbose flags,
the source directory captured from getcwd, and the dict mapping noted
filenames to source modification times. -/
structure HelperState where
  dryrun : Bool
  verbose : Bool
  source_dir : String
  files : List (String × Nat)
deriving DecidableEq, Repr

/-- TimestampCompositorHelper.__init__. -/
def helperInit (dryrun verbose : Bool) : HelperState :=
  { dryrun := dryrun, verbose := verbose, source_dir := "", files := [] }

/-- TimestampCompositorHelper.composite: capture the cwd once, then
record the source mtime.  statResult is the outcome of os.stat on the
source.  When the stat raises OSError the handler only prints, after
which the assignment reads the never-assigned local src_time and raises
UnboundLocalError, embedded as the error case. -/
def helperComposite (cwd : String) (statResult : Option Nat) (filename : String)
    (st : HelperState) : Except String HelperState :=
  let st := if st.source_dir = "" then { st with source_dir := cwd } else st
  if st.dryrun then .ok st
  else
    match statResult with
    | some t => .ok { st with files := dictInsert st.files filename t }
    | none => .error "UnboundLocalError"

/-- The loop of TimestampCompositorHelper.write: for each noted file,
stat the destination (0 when the stat raises), re-read the source mtime
from the dict (returning early on the impossible KeyError), and invoke
the action on (destination, source_dir/destination) when the destination
is strictly older.  The result is the list of action invocations. -/
def helperWriteAux (dstStat : String → Option Nat) (dict : List (String × Nat))
    (source_dir : String) : List (String × Nat) → List (String × String)
  | [] => []
  | (filename, _) :: rest =>
    let dst_time := (dstStat filename).getD 0
    match List.lookup filename dict with
    | none => []
    | some src_time =>
      if dst_time < src_time then
        (filename, source_dir ++ "/" ++ filename) ::
          helperWriteAux dstStat dict source_dir rest
      else
        helperWriteAux dstStat dict source_dir rest

/-- TimestampCompositorHelper.write: no-op under dryrun, else the loop
over the noted files. -/
def helperWrite (dstStat : String → Option Nat) (st : HelperState) :
    List (String × String) :=
  if st.dryrun then [] else helperWriteAux dstStat st.files st.source_dir st.files

/-! ## StaticCompositor and ImageCompositor -/

/-- State of StaticCompositor: flags, its own source directory, the
embedded timestamp helper, and the dict mapping full source paths to
templates (templates are abstract handles, kept as strings). -/
structure StaticState where
  dryrun : Bool
  verbose : Bool
  source_dir : String
  helper : HelperState
  pages : List (String × String)
deriving DecidableEq, Repr

/-- StaticCompositor.__init__. -/
def staticInit (dryrun verbose : Bool) : StaticState :=
  { dryrun := dryrun, verbose := verbose, source_dir := ""
    helper := helperInit dryrun verbose, pages := [] }

/-- StaticCompositor.composite: under dryrun only print; otherwise
capture cwd, record the page under source_dir/filename, and note the
file with the timestamp helper. -/
def staticComposite (cwd : String) (statResult : Option Nat)
    (filename template : String) (st : StaticState) : Except String StaticState :=
  if st.dryrun then .ok st
  else
    let st := if st.source_dir = "" then { st with source_dir := cwd } else st
    let st := { st with
      pages := dictInsert st.pages (st.source_dir ++ "/" ++ filename) template }
    (helperComposite cwd statResult filename st.helper).map
      (fun h => { st with helper := h })

/-- StaticCompositor.write: the static_render action is handed to the
timestamp helper, so the result is the list of (destination, source)
render invocations the helper performs. -/
def staticWrite (dstStat : String → Option Nat) (st : StaticState) :
    List (String × String) :=
  if st.dryrun then [] else helperWrite dstStat st.helper

/-- State of ImageCompositor: flags, source directory, and the embedded
timestamp helper. -/
structure ImageState where
  dryrun : Bool
  verbose : Bool
  source_dir : String
  helper : HelperState
deriving DecidableEq, Repr

/-- ImageCompositor.__init__. -/
def imageInit (dryrun verbose : Bool) : ImageState :=
  { dryrun := dryrun, verbose := verbose, source_dir := ""
    helper := helperInit dryrun verbose }

/-- ImageCompositor.composite: under dryrun only print; otherwise note
the file with the timestamp helper (the template is unused). -/
def imageComposite (cwd : String) (statResult : Option Nat)
    (filename : String) (st : ImageState) : Except String ImageState :=
  if st.dryrun then .ok st
  else
    (helperComposite cwd statResult filename st.helper).map
      (fun h => { st with helper := h })

/-- ImageCompositor.write: the copy_image action is handed to the
timestamp helper, so the result is the list of (destination, source)
copy invocations the helper performs. -/
def imageWrite (dstStat : String → Option Nat) (st : ImageState) :
    List (String × String) :=
  if st.dryrun then [] else helperWrite dstStat st.helper

/-! ## BlogCompositor -/

/-- State of BlogCompositor: pre_pages maps filenames to
(template, value dict) pairs with next_page and previous_page still
missing; slugs maps date slugs to the set of filenames published that
day; keywords is the set of keywords encountered. -/
structure BlogState where
  dryrun : Bool
  verbose : Bool
  pre_pages : List (String × String × List (String × String))
  slugs : List (String × List String)
  keywords : List String
deriving DecidableEq, Repr

/-- BlogCompositor.__init__ together with the initially empty
class-level collections. -/
def blogInit (dryrun verbose : Bool) : BlogState :=
  { dryrun := dryrun, verbose := verbose, pre_pages := [], slugs := [], keywords := [] }

/-- BlogCompositor.composite: parse the spec from the file lines; a page
with no publication_date is only logged and ignored; an unparseable date
propagates the parser exception; the slug is the formatted date; a slug
already present reaches slugs[slug].add([filename]), which raises
TypeError because a list is unhashable, embedded as the error case;
otherwise the filename is registered, the CSV keywords are unioned in,
and the page is stored pending write. -/
def blogComposite (dateParse : String → Option (Nat × Nat × Nat))
    (fileLines : List String) (filename template : String)
    (st : BlogState) : Except String BlogState :=
  if st.dryrun then .ok st
  else
    let value_map := readPageSpec fileLines
    match dictGet value_map "publication_date" with
    | none => .ok st
    | some dateStr =>
      match dateParse dateStr with
      | none => .error "ValueError"
      | some (y, m, d) =>
        let slug := slugOf y m d
        let value_map := dictInsert value_map "slug" slug
        if (dictGet st.slugs slug).isSome then
          .error "TypeError: unhashable type: list"
        else
          let st := { st with slugs := dictInsert st.slugs slug [filename] }
          let kws := splitOnChar ',' ((dictGet value_map "keywords").getD "")
          let st := { st with keywords := setUpdate st.keywords kws }
          .ok { st with pre_pages := dictInsert st.pre_pages filename (template, value_map) }

/-- BlogCompositor.write: after the dryrun check the body holds only a
TODO comment, so nothing is rendered, written, or linked; the list of
emitted (path, page) outputs is empty. -/
def blogWrite (_st : BlogState) : List (String × String) :=
  []

/-! ## Site routing -/

/-- Character-by-character anchored match of a pattern against the
start of a string. -/
def charsMatchAtStart : List Char → List Char → Bool
  | [], _ => true
  | _ :: _, [] => false
  | p :: ps, c :: cs => p == c && charsMatchAtStart ps cs

/-- Models re.match for the metacharacter-free patterns exercised here:
an anchored-at-start match is a literal match of the pattern characters
against the start of the path. -/
def reMatchLiteral (pattern_string s : String) : Bool :=
  charsMatchAtStart pattern_string.data s.data

/-- Site.act_on_file: iterate the regexes in configured order; on the
first match look up the rule's (template name, compositor name) and then
the template cache, logging and giving up when either is missing; report
no match after the loop.  The result is the selected pair. -/
def actOnFile (rmatch : String → String → Bool) (regexes : List String)
    (actions : List (String × String × String)) (templates : List (String × String))
    (filename : String) : Option (String × String) :=
  match regexes with
  | [] => none
  | r :: rest =>
    if rmatch r filename then
      match List.lookup r actions with
      | none => none
      | some (template, compositor) =>
        match List.lookup template templates with
        | none => none
        | some _ => some (template, compositor)
    else actOnFile rmatch rest actions templates filename

/-- One line of the Site.__init__ config loop: indexing line[0] on an
empty string would raise IndexError; a line starting with '#' is
skipped; any other line is split on whitespace and unpacked into exactly
three fields, raising ValueError otherwise. -/
def readConfigLine (line : String) : Except String (Option (String × String × String)) :=
  match line.data with
  | [] => .error "IndexError"
  | c :: _ =>
    if c ≠ '#' ∧ line.length > 0 then
      match pySplitWhitespace line with
      | [r, t, k] => .ok (some (r, t, k))
      | _ => .error "ValueError"
    else .ok none

/-- The config-reading loop of Site.__init__ over the raw lines of the
config file (each line still carrying its trailing newline, as
readlines yields them), collecting the rule triples in order. -/
def siteReadConfig : List String → Except String (List (String × String × String))
  | [] => .ok []
  | line :: rest => do
    match ← readConfigLine line with
    | some rule =>
      let rules ← siteReadConfig rest
      .ok (rule :: rules)
    | none => siteReadConfig rest

/-! ## Spec-side descriptions used to state the parser claims -/

/-- The text of a well-formed page spec: for each (key, block) entry a
marker line followed by the block's lines. -/
def flattenEntries : List (String × List String) → List String
  | [] => []
  | (k, b) :: rest => (":" ++ k ++ ":") :: (b ++ flattenEntries rest)

/-- A key as the marker regex accepts it: nonempty, word characters only. -/
def wordKey (k : String) : Bool :=
  !(k.data.isEmpty) && k.data.all isWordChar

/-- The dict a well-formed spec should parse to: each entry inserted in
order with its newline-joined block. -/
def specDict (es : List (String × List String)) (init : List (String × String)) :
    List (String × String) :=
  es.foldl (fun d e => dictInsert d e.1 (joinLines e.2)) init

/-! ## Concrete scenarios for witnesses and counterexamples -/

/-- Blog page spec dated 2020-01-01. -/
def blogPage1 : List String := [":publication_date:", "2020-01-01", ":title:", "One"]

/-- Blog page spec dated 2020-01-05. -/
def blogPage2 : List String := [":publication_date:", "2020-01-05", ":title:", "Two"]

/-- Blog page spec dated 2020-01-10. -/
def blogPage3 : List String := [":publication_date:", "2020-01-10", ":title:", "Three"]

/-- State after compositing the first blog page. -/
def blogStA : Except String BlogState :=
  blogComposite isoParse blogPage1 "p1" "tmpl" (blogInit false false)

/-- State after compositing the first two blog pages. -/
def blogStB : Except String BlogState :=
  blogStA.bind (blogComposite isoParse blogPage2 "p2" "tmpl")

/-- State after compositing all three blog pages. -/
def blogStC : Except String BlogState :=
  blogStB.bind (blogComposite isoParse blogPage3 "p3" "tmpl")

/-- Blog page spec whose date slug collides with blogPage1. -/
def blogPageDup : List String := [":publication_date:", "2020-1-1", ":title:", "Dup"]

/-- Routing rules of the longest-match scenario, as an actions dict. -/
def rulesAB : List (String × String × String) :=
  [("/a", "template1", "K1"), ("/a/b", "template2", "K2")]

/-- Declaration order with the short pattern first. -/
def regexesAB : List String := ["/a", "/a/b"]

/-- Declaration order with the long pattern first. -/
def regexesBA : List String := ["/a/b", "/a"]

/-- Template cache of the routing scenario. -/
def templatesT : List (String × String) := [("template1", "T1"), ("template2", "T2")]

/-- Helper state with two noted files, for the incremental-write witness. -/
def hstW : HelperState :=
  { dryrun := false, verbose := false, source_dir := "/src"
    files := [("a", 5), ("b", 3)] }

/-- Destination stat for the witness: file a is fresh, file b missing. -/
def dstStatW : String → Option Nat :=
  fun f => if f = "a" then some 10 else none

/-- Static state holding one prepared page with source mtime 5. -/
def sstC : Except String StaticState :=
  staticComposite "/cwd" (some 5) "p.html" "tmpl" (staticInit false false)

/-- Image state holding one noted image with source mtime 5. -/
def istC : Except String ImageState :=
  imageComposite "/cwd" (some 5) "img.png" (imageInit false false)

/-- Destination stat under which every destination is fresh. -/
def freshStat : String → Option Nat := fun _ => some 9

/-- Destination stat under which every destination is stale. -/
def staleStat : String → Option Nat := fun _ => some 2

/-- Static state with one recorded page, for the amended-claim witness. -/
def sstW : StaticState :=
  { dryrun := false, verbose := false, source_dir := "/cwd"
    helper := { dryrun := false, verbose := false, source_dir := "/cwd"
                files := [("p.html", 5)] }
    pages := [("/cwd/p.html", "tmpl")] }

/-- Image state with one recorded image, for the amended-claim witness. -/
def istW : ImageState :=
  { dryrun := false, verbose := false, source_dir := ""
    helper := { dryrun := false, verbose := false, source_dir := "/cwd"
                files := [("img.png", 7)] } }

/-- Spec text with a leading line before the first marker. -/
def leadingLines : List String := ["junk", ":title:", "hello"]

/-- Well-formed two-entry page spec for the parser witness. -/
def specEntriesW : List (String × List String) :=
  [("title", ["Hello"]), ("body", ["line one", "line two"])]

/-- Config lines containing a comment and one rule. -/
def configOkLines : List String :=
  ["# comment\n", "a.* page.tmpl StaticCompositor\n"]

/-- Config lines containing an empty line after a rule. -/
def configEmptyLines : List String :=
  ["a.* page.tmpl StaticCompositor\n", "\n"]

/-! ## Lemmas about pyRstrip and marker lines -/

theorem dropWhile_append_all {p : Char → Bool} (xs ys : List Char)
    (h : ∀ x ∈ xs, p x = true) :
    List.dropWhile p (xs ++ ys) = List.dropWhile p ys := by
  induction xs with
  | nil => rfl
  | cons x xs ih =>
    rw [List.cons_append, List.dropWhile_cons_of_pos (h x (List.mem_cons_self x xs))]
    exact ih (fun a ha => h a (List.mem_cons_of_mem x ha))

theorem pyRstrip_append_ws (l s : String)
    (h : ∀ c ∈ s.data, c = ' ' ∨ c = '\t') :
    pyRstrip (l ++ s) = pyRstrip l := by
  have hdata : (l ++ s).data = l.data ++ s.data := rfl
  unfold pyRstrip
  rw [hdata, List.reverse_append, dropWhile_append_all s.data.reverse l.data.reverse]
  intro c hc
  rcases h c (List.mem_reverse.mp hc) with h1 | h1 <;> simp [isPySpace, h1]

theorem pyRstrip_eq_self_of_getLast (s : String) (c : Char)
    (hc : s.data.getLast? = some c) (hns : isPySpace c = false) :
    pyRstrip s = s := by
  have h1 : s.data.reverse.head? = some c := by rw [List.head?_reverse]; exact hc
  cases hrev : s.data.reverse with
  | nil => rw [hrev] at h1; cases h1
  | cons d tail =>
    rw [hrev] at h1
    have hd : d = c := by injection h1
    unfold pyRstrip
    rw [hrev, List.dropWhile_cons_of_neg (by rw [hd, hns]; exact Bool.false_ne_true),
      ← hrev, List.reverse_reverse]

theorem marker_data (k : String) :
    (":" ++ k ++ ":").data = ':' :: (k.data ++ [':']) := rfl

theorem pyRstrip_marker (k : String) :
    pyRstrip (":" ++ k ++ ":") = ":" ++ k ++ ":" := by
  apply pyRstrip_eq_self_of_getLast _ ':'
  · rw [marker_data, ← List.cons_append, List.getLast?_concat]
  · rfl

theorem isMarkerLine_marker (k : String) (h : wordKey k = true) :
    isMarkerLine (":" ++ k ++ ":") = true := by
  rw [wordKey, Bool.and_eq_true, Bool.not_eq_true'] at h
  obtain ⟨hne, hall⟩ := h
  rw [isMarkerLine, marker_data]
  have hlast : (':' :: (k.data ++ [':'])).getLast? = some ':' := by
    rw [← List.cons_append, List.getLast?_concat]
  have hdrop : (':' :: (k.data ++ [':'])).drop 1 = k.data ++ [':'] := rfl
  rw [hdrop, hlast, List.dropLast_concat, hne, hall]
  rfl

theorem markerKey_marker (k : String) :
    markerKey (":" ++ k ++ ":") = k := by
  rw [markerKey, marker_data]
  have hdrop : (':' :: (k.data ++ [':'])).drop 1 = k.data ++ [':'] := rfl
  rw [hdrop, List.dropLast_concat]

/-! ## Lemmas about the read_page_spec loop -/

theorem loop_cons (spec : List (String × String)) (key : Option String)
    (value : List String) (l : String) (rest : List String) :
    readPageSpecLoop spec key value (l :: rest)
      = if isMarkerLine (pyRstrip l) then
          match key with
          | none => readPageSpecLoop spec (some (markerKey (pyRstrip l))) value rest
          | some k =>
            readPageSpecLoop (dictInsert spec k (joinLines value))
              (some (markerKey (pyRstrip l))) [] rest
        else readPageSpecLoop spec key (value ++ [pyRstrip l]) rest := rfl

theorem loop_line_not_marker (spec : List (String × String)) (key : Option String)
    (value : List String) (l : String) (rest : List String)
    (hcl : pyRstrip l = l) (hmk : isMarkerLine l = false) :
    readPageSpecLoop spec key value (l :: rest)
      = readPageSpecLoop spec key (value ++ [l]) rest := by
  rw [loop_cons, hcl, hmk]
  simp

theorem loop_line_marker_some (spec : List (String × String)) (k : String)
    (value : List String) (l : String) (rest : List String)
    (hcl : pyRstrip l = l) (hmk : isMarkerLine l = true) :
    readPageSpecLoop spec (some k) value (l :: rest)
      = readPageSpecLoop (dictInsert spec k (joinLines value))
          (some (markerKey l)) [] rest := by
  rw [loop_cons, hcl, hmk]
  simp

theorem loop_line_marker_none (spec : List (String × String))
    (value : List String) (l : String) (rest : List String)
    (hcl : pyRstrip l = l) (hmk : isMarkerLine l = true) :
    readPageSpecLoop spec none value (l :: rest)
      = readPageSpecLoop spec (some (markerKey l)) value rest := by
  rw [loop_cons, hcl, hmk]
  simp

theorem loop_block (b : List String) :
    (∀ l ∈ b, pyRstrip l = l ∧ isMarkerLine l = false) →
    ∀ (spec : List (String × String)) (key : Option String)
      (value rest : List String),
      readPageSpecLoop spec key value (b ++ rest)
        = readPageSpecLoop spec key (value ++ b) rest := by
  induction b with
  | nil => intro _ spec key value rest; simp
  | cons l b ih =>
    intro hb spec key value rest
    obtain ⟨hcl, hmk⟩ := hb l (List.mem_cons_self l b)
    rw [List.cons_append, loop_line_not_marker spec key value l (b ++ rest) hcl hmk,
      ih (fun x hx => hb x (List.mem_cons_of_mem l hx)) spec key (value ++ [l]) rest,
      List.append_assoc]
    rfl

theorem loop_entries (es : List (String × List String)) :
    (∀ e ∈ es, wordKey e.1 = true ∧ ∀ l ∈ e.2, pyRstrip l = l ∧ isMarkerLine l = false) →
    ∀ (spec : List (String × String)) (k : String) (value : List String),
      readPageSpecLoop spec (some k) value (flattenEntries es)
        = specDict es (dictInsert spec k (joinLines value)) := by
  induction es with
  | nil => intro _ spec k value; rfl
  | cons e es ih =>
    obtain ⟨k1, b1⟩ := e
    intro hes spec k value
    obtain ⟨hk1, hb1⟩ := hes (k1, b1) (List.mem_cons_self _ _)
    have hflat : flattenEntries ((k1, b1) :: es)
        = (":" ++ k1 ++ ":") :: (b1 ++ flattenEntries es) := rfl
    rw [hflat,
      loop_line_marker_some spec k value (":" ++ k1 ++ ":") (b1 ++ flattenEntries es)
        (pyRstrip_marker k1) (isMarkerLine_marker k1 hk1),
      markerKey_marker,
      loop_block b1 hb1 (dictInsert spec k (joinLines value)) (some k1) [] (flattenEntries es),
      List.nil_append,
      ih (fun x hx => hes x (List.mem_cons_of_mem _ hx))
        (dictInsert spec k (joinLines value)) k1 b1]
    rfl

/-! ## Association-list lemmas -/

theorem dictInsert_not_mem {α : Type} (d : List (String × α)) (k : String) (v : α)
    (h : k ∉ d.map Prod.fst) : dictInsert d k v = d ++ [(k, v)] := by
  induction d with
  | nil => rfl
  | cons p d ih =>
    obtain ⟨k1, v1⟩ := p
    rw [List.map_cons, List.mem_cons] at h
    push_neg at h
    rw [dictInsert, if_neg (fun he => h.1 he.symm), List.cons_append, ih h.2]

theorem specDict_eq (es : List (String × List String)) :
    ∀ (init : List (String × String)),
      (es.map Prod.fst).Nodup →
      (∀ k ∈ es.map Prod.fst, k ∉ init.map Prod.fst) →
      specDict es init = init ++ es.map (fun e => (e.1, joinLines e.2)) := by
  induction es with
  | nil => intro init _ _; simp [specDict]
  | cons e es ih =>
    obtain ⟨k1, b1⟩ := e
    intro init hnd hdisj
    rw [List.map_cons, List.nodup_cons] at hnd
    have hstep : specDict ((k1, b1) :: es) init
        = specDict es (dictInsert init k1 (joinLines b1)) := rfl
    rw [hstep, dictInsert_not_mem init k1 (joinLines b1)
        (hdisj k1 (by rw [List.map_cons]; exact List.mem_cons_self _ _))]
    rw [ih (init ++ [(k1, joinLines b1)]) hnd.2 ?_]
    · simp
    · intro k hk
      rw [List.map_append, List.mem_append]
      push_neg
      constructor
      · exact hdisj k (by rw [List.map_cons]; exact List.mem_cons_of_mem _ hk)
      · intro hmem
        simp only [List.map_cons, List.map_nil, List.mem_singleton] at hmem
        exact hnd.1 (hmem ▸ hk)

theorem lookup_eq_some_of_mem {α : Type} (d : List (String × α))
    (hnd : (d.map Prod.fst).Nodup) (f : String) (t : α) (h : (f, t) ∈ d) :
    List.lookup f d = some t := by
  induction d with
  | nil => cases h
  | cons p d ih =>
    obtain ⟨f1, t1⟩ := p
    rw [List.map_cons, List.nodup_cons] at hnd
    rcases List.mem_cons.mp h with heq | hmem
    · injection heq with h1 h2
      subst h1; subst h2
      simp [List.lookup]
    · have hne : f ≠ f1 := by
        intro he
        exact hnd.1 (he ▸ List.mem_map.mpr ⟨(f, t), hmem, rfl⟩)
      have hbeq : (f == f1) = false := beq_eq_false_iff_ne.mpr hne
      simp only [List.lookup, hbeq]
      exact ih hnd.2 hmem

theorem lookup_map_joinLines (es : List (String × List String)) :
    (es.map Prod.fst).Nodup →
    ∀ e ∈ es, List.lookup e.1 (es.map (fun x => (x.1, joinLines x.2)))
      = some (joinLines e.2) := by
  intro hnd e he
  apply lookup_eq_some_of_mem
  · rw [List.map_map]
    exact hnd
  · exact List.mem_map.mpr ⟨e, he, rfl⟩

theorem loop_congr_rstrip {ls ls2 : List String}
    (h : List.Forall₂ (fun a b => pyRstrip a = pyRstrip b) ls ls2) :
    ∀ (spec : List (String × String)) (key : Option String) (value : List String),
      readPageSpecLoop spec key value ls = readPageSpecLoop spec key value ls2 := by
  induction h with
  | nil => intro spec key value; rfl
  | @cons a b l l2 hab _ ih =>
    intro spec key value
    rw [loop_cons, loop_cons, hab]
    by_cases hm : isMarkerLine (pyRstrip b) = true
    · rw [if_pos hm, if_pos hm]
      cases key with
      | none => exact ih spec _ value
      | some k => exact ih _ _ []
    · rw [if_neg hm, if_neg hm]
      exact ih spec key (value ++ [pyRstrip b])

theorem forall₂_zipWith_append_ws (ls ss : List String)
    (hlen : ss.length = ls.length)
    (hws : ∀ s ∈ ss, ∀ c ∈ s.data, c = ' ' ∨ c = '\t') :
    List.Forall₂ (fun a b => pyRstrip a = pyRstrip b)
      (List.zipWith (fun a b => a ++ b) ls ss) ls := by
  induction ls generalizing ss with
  | nil => cases ss <;> simp at hlen ⊢
  | cons l ls ih =>
    cases ss with
    | nil => simp at hlen
    | cons s ss =>
      rw [List.zipWith_cons_cons]
      refine List.Forall₂.cons ?_ ?_
      · exact pyRstrip_append_ws l s (hws s (List.mem_cons_self s ss))
      · exact ih ss (by simpa using hlen) (fun x hx => hws x (List.mem_cons_of_mem s hx))

/-! ## Lemmas about TimestampCompositorHelper.write -/

theorem helperWriteAux_eq (dstStat : String → Option Nat) (dict : List (String × Nat))
    (dir : String) :
    ∀ sub : List (String × Nat),
      (∀ p ∈ sub, List.lookup p.1 dict = some p.2) →
      helperWriteAux dstStat dict dir sub
        = sub.filterMap (fun p =>
            if (dstStat p.1).getD 0 < p.2 then some (p.1, dir ++ "/" ++ p.1) else none) := by
  intro sub
  induction sub with
  | nil => intro _; rfl
  | cons p sub ih =>
    intro h
    obtain ⟨f, t⟩ := p
    have h1 : List.lookup f dict = some t := h (f, t) (List.mem_cons_self _ _)
    have hrest := ih (fun q hq => h q (List.mem_cons_of_mem _ hq))
    simp only [helperWriteAux, h1, List.filterMap_cons]
    by_cases hlt : (dstStat f).getD 0 < t
    · rw [if_pos hlt, if_pos hlt, hrest]
    · rw [if_neg hlt, if_neg hlt, hrest]

theorem nodup_keys_value_eq {α : Type} (d : List (String × α))
    (hnd : (d.map Prod.fst).Nodup) (f : String) (t t2 : α)
    (h1 : (f, t) ∈ d) (h2 : (f, t2) ∈ d) : t = t2 := by
  have e1 := lookup_eq_some_of_mem d hnd f t h1
  have e2 := lookup_eq_some_of_mem d hnd f t2 h2
  rw [e1] at e2
  injection e2

theorem helperWrite_eq_filterMap (dstStat : String → Option Nat) (st : HelperState)
    (hdry : st.dryrun = false) (hnd : (st.files.map Prod.fst).Nodup) :
    helperWrite dstStat st
      = st.files.filterMap (fun p =>
          if (dstStat p.1).getD 0 < p.2 then
            some (p.1, st.source_dir ++ "/" ++ p.1) else none) := by
  rw [helperWrite, hdry]
  simp only [Bool.false_eq_true, if_false]
  exact helperWriteAux_eq dstStat st.files st.source_dir st.files
    (fun p hp => lookup_eq_some_of_mem st.files hnd p.1 p.2 hp)

theorem mem_helperWrite_iff (dstStat : String → Option Nat) (st : HelperState)
    (hdry : st.dryrun = false) (hnd : (st.files.map Prod.fst).Nodup)
    (f : String) (t : Nat) (hmem : (f, t) ∈ st.files) :
    ((f, st.source_dir ++ "/" ++ f) ∈ helperWrite dstStat st)
      ↔ (dstStat f).getD 0 < t := by
  rw [helperWrite_eq_filterMap dstStat st hdry hnd]
  constructor
  · intro h
    obtain ⟨⟨f2, t2⟩, hmem2, heq⟩ := List.mem_filterMap.mp h
    by_cases hlt : (dstStat f2).getD 0 < t2
    · rw [if_pos hlt] at heq
      injection heq with heq2
      injection heq2 with hf _
      have hf2 : f2 = f := hf
      rw [hf2] at hmem2 hlt
      rwa [nodup_keys_value_eq st.files hnd f t t2 hmem hmem2]
    · rw [if_neg hlt] at heq
      cases heq
  · intro hlt
    exact List.mem_filterMap.mpr ⟨(f, t), hmem, by rw [if_pos hlt]⟩

theorem helperWrite_eq_nil_of_fresh (dstStat : String → Option Nat) (st : HelperState)
    (hdry : st.dryrun = false) (hnd : (st.files.map Prod.fst).Nodup)
    (hfresh : ∀ p ∈ st.files, p.2 ≤ (dstStat p.1).getD 0) :
    helperWrite dstStat st = [] := by
  rw [helperWrite_eq_filterMap dstStat st hdry hnd]
  rw [List.filterMap_eq_nil_iff]
  intro p hp
  rw [if_neg (not_lt.mpr (hfresh p hp))]

/-! ## Claim theorems -/

/-- Claim C1: the claimed behaviour of the Sequenced (blog) compositor
does not exist in the code.  After the three prepare calls for pages
dated 2020-01-01, 2020-01-05 and 2020-01-10 all succeed and all three
pages are pending, write emits no pages at all, and no page's render
values contain previous_page or next_page links: the body of
BlogCompositor.write is an unimplemented TODO. -/
theorem blog_write_unimplemented_three_pages :
    blogStC.map blogWrite = .ok []
    ∧ blogStC.map (fun st => st.pre_pages.map Prod.fst) = .ok ["p1", "p2", "p3"]
    ∧ blogStC.map (fun st => st.pre_pages.all (fun e =>
        ((dictGet e.2.2 "previous_page").isNone
          && (dictGet e.2.2 "next_page").isNone))) = .ok true :=
  ⟨rfl, rfl, rfl⟩

/-- Claim C2, counterexample: with the rule for "/a" declared before the
rule for "/a/b", resolving "/a/b/c" selects the "/a" rule's template and
kind, not the longest-matching "/a/b" rule, so resolution is not
order-independent longest-match. -/
theorem route_longest_match_counterexample :
    actOnFile reMatchLiteral regexesAB rulesAB templatesT "/a/b/c"
      = some ("template1", "K1")
    ∧ actOnFile reMatchLiteral regexesAB rulesAB templatesT "/a/b/c"
      ≠ some ("template2", "K2") := by
  refine ⟨rfl, ?_⟩
  decide

/-- Claim C2, amended: resolution iterates the rules in declaration
order and the first rule whose pattern matches at the start of the path
wins; with rules "/a" and "/a/b", resolving "/a/b/c" selects whichever
of the two rules was declared first. -/
theorem route_first_declared_match :
    actOnFile reMatchLiteral regexesAB rulesAB templatesT "/a/b/c"
      = some ("template1", "K1")
    ∧ actOnFile reMatchLiteral regexesBA rulesAB templatesT "/a/b/c"
      = some ("template2", "K2") :=
  ⟨rfl, rfl⟩

/-- Claim C3: for every noted file, commit invokes the action exactly
when the destination mtime (0 when the destination cannot be stat'd,
the oldest possible time) is strictly below the recorded source mtime;
hence when every destination is up to date no action runs at all, and a
missing destination of a source with positive mtime is always
regenerated. -/
theorem commit_action_iff_stale (dstStat : String → Option Nat) (st : HelperState)
    (hdry : st.dryrun = false) (hnd : (st.files.map Prod.fst).Nodup) :
    (∀ f t, (f, t) ∈ st.files →
      (((f, st.source_dir ++ "/" ++ f) ∈ helperWrite dstStat st)
        ↔ (dstStat f).getD 0 < t))
    ∧ ((∀ p ∈ st.files, p.2 ≤ (dstStat p.1).getD 0) → helperWrite dstStat st = [])
    ∧ (∀ f t, (f, t) ∈ st.files → dstStat f = none → 0 < t →
      ((f, st.source_dir ++ "/" ++ f) ∈ helperWrite dstStat st)) := by
  refine ⟨?_, ?_, ?_⟩
  · intro f t hm
    exact mem_helperWrite_iff dstStat st hdry hnd f t hm
  · intro hfresh
    exact helperWrite_eq_nil_of_fresh dstStat st hdry hnd hfresh
  · intro f t hm hnone hpos
    refine (mem_helperWrite_iff dstStat st hdry hnd f t hm).mpr ?_
    rw [hnone]
    exact hpos

/-- Witness for C3: in a state noting a (mtime 5) and b (mtime 3), with
destination a fresh at mtime 10 and destination b missing, commit acts
on b and not on a. -/
theorem commit_action_iff_stale_witness :
    (("b", "/src/b") ∈ helperWrite dstStatW hstW)
    ∧ ¬(("a", "/src/a") ∈ helperWrite dstStatW hstW) := by
  have h := commit_action_iff_stale dstStatW hstW rfl (by decide)
  refine ⟨h.2.2 "b" 3 (by decide) (by decide) (by decide), ?_⟩
  intro hmem
  have hlt := (h.1 "a" 5 (by decide)).mp hmem
  exact absurd hlt (by decide)

/-- Claim C4: the first page of a publication day registers its filename
under the day's slug, but the second page whose date normalizes to the
same slug hits slugs[slug].add([filename]), which raises TypeError (a
list is unhashable), so the second registration fails instead of adding
the filename. -/
theorem slug_collision_typeerror :
    blogStA.map (fun st => dictGet st.slugs "2020-01-01") = .ok (some ["p1"])
    ∧ blogStA.bind (blogComposite isoParse blogPageDup "fB" "tmpl")
      = .error "TypeError: unhashable type: list" :=
  ⟨rfl, rfl⟩

/-- Claim C5: for a well-formed spec text (distinct word keys, block
lines free of trailing whitespace and not marker lines), parse returns
exactly one entry per key, and each key's value is the newline-joined
block that followed its marker. -/
theorem parse_wellformed_entries (es : List (String × List String))
    (hnd : (es.map Prod.fst).Nodup)
    (hwf : ∀ e ∈ es, wordKey e.1 = true
      ∧ ∀ l ∈ e.2, pyRstrip l = l ∧ isMarkerLine l = false) :
    (readPageSpec (flattenEntries es)).length = es.length
    ∧ ∀ e ∈ es, dictGet (readPageSpec (flattenEntries es)) e.1
        = some (joinLines e.2) := by
  have hmain : readPageSpec (flattenEntries es)
      = es.map (fun e => (e.1, joinLines e.2)) := by
    cases es with
    | nil => rfl
    | cons e es2 =>
      obtain ⟨k1, b1⟩ := e
      obtain ⟨hk1, hb1⟩ := hwf (k1, b1) (List.mem_cons_self _ _)
      rw [List.map_cons, List.nodup_cons] at hnd
      have hflat : flattenEntries ((k1, b1) :: es2)
          = (":" ++ k1 ++ ":") :: (b1 ++ flattenEntries es2) := rfl
      rw [readPageSpec, hflat,
        loop_line_marker_none [] [] (":" ++ k1 ++ ":") _
          (pyRstrip_marker k1) (isMarkerLine_marker k1 hk1),
        markerKey_marker,
        loop_block b1 hb1 [] (some k1) [] (flattenEntries es2),
        List.nil_append,
        loop_entries es2 (fun x hx => hwf x (List.mem_cons_of_mem _ hx)) [] k1 b1]
      have hins : dictInsert ([] : List (String × String)) k1 (joinLines b1)
          = [(k1, joinLines b1)] := rfl
      rw [hins, specDict_eq es2 [(k1, joinLines b1)] hnd.2 ?_]
      · simp
      · intro k hk
        simp only [List.map_cons, List.map_nil, List.mem_singleton]
        intro he
        exact hnd.1 (he ▸ hk)
  refine ⟨?_, ?_⟩
  · rw [hmain, List.length_map]
  · intro e he
    rw [hmain, dictGet]
    exact lookup_map_joinLines es hnd e he

/-- Witness for C5: a two-entry spec parses to two entries carrying the
joined blocks. -/
theorem parse_wellformed_entries_witness :
    (readPageSpec (flattenEntries specEntriesW)).length = 2
    ∧ dictGet (readPageSpec (flattenEntries specEntriesW)) "body"
      = some (joinLines ["line one", "line two"]) := by
  have h := parse_wellformed_entries specEntriesW (by decide) (by decide)
  exact ⟨h.1, h.2 ("body", ["line one", "line two"]) (by decide)⟩

/-- Claim C6: leading non-marker lines are not discarded by the parser:
on the failing input they are prepended to the first key's value, in
contradiction with the claimed algorithm. -/
theorem leading_lines_prepended_first_key :
    readPageSpec leadingLines = [("title", "junk\nhello")]
    ∧ readPageSpec leadingLines ≠ [("title", "hello")] := by
  refine ⟨rfl, ?_⟩
  decide

/-- Claim C7: the component operations do raise on bad input: note with
an unstattable source raises UnboundLocalError (the OSError handler only
prints, then the assignment reads the never-bound src_time), and the
blog prepare propagates the date parser's ValueError on an unparseable
publication date. -/
theorem prepare_note_raise_on_bad_input :
    helperComposite "/cwd" none "bad.txt" (helperInit false false)
      = .error "UnboundLocalError"
    ∧ blogComposite isoParse [":publication_date:", "not a date"] "f" "t"
        (blogInit false false) = .error "ValueError" :=
  ⟨rfl, rfl⟩

/-- Claim C8, counterexample: one page and one image are accumulated,
yet with every destination fresh (mtime 9 against source mtime 5) flush
performs no write at all, so writes are not unconditional. -/
theorem static_image_flush_skips_fresh :
    sstC.map (fun st => (st.helper.files.map Prod.fst, staticWrite freshStat st))
      = .ok (["p.html"], [])
    ∧ istC.map (fun st => (st.helper.files.map Prod.fst, imageWrite freshStat st))
      = .ok (["img.png"], []) :=
  ⟨rfl, rfl⟩

/-- Claim C8, amended: the Static and Image compositors hand their
render and copy actions to the timestamp helper, so flush performs the
action for a recorded pair exactly when the destination mtime (0 when
missing) is strictly below the recorded source mtime. -/
theorem static_image_flush_incremental (dstStat : String → Option Nat)
    (sst : StaticState) (ist : ImageState)
    (hs1 : sst.dryrun = false) (hs2 : sst.helper.dryrun = false)
    (hs3 : (sst.helper.files.map Prod.fst).Nodup)
    (hi1 : ist.dryrun = false) (hi2 : ist.helper.dryrun = false)
    (hi3 : (ist.helper.files.map Prod.fst).Nodup) :
    (∀ f t, (f, t) ∈ sst.helper.files →
      (((f, sst.helper.source_dir ++ "/" ++ f) ∈ staticWrite dstStat sst)
        ↔ (dstStat f).getD 0 < t))
    ∧ (∀ f t, (f, t) ∈ ist.helper.files →
      (((f, ist.helper.source_dir ++ "/" ++ f) ∈ imageWrite dstStat ist)
        ↔ (dstStat f).getD 0 < t)) := by
  constructor
  · intro f t hm
    rw [staticWrite, hs1]
    simp only [Bool.false_eq_true, if_false]
    exact mem_helperWrite_iff dstStat sst.helper hs2 hs3 f t hm
  · intro f t hm
    rw [imageWrite, hi1]
    simp only [Bool.false_eq_true, if_false]
    exact mem_helperWrite_iff dstStat ist.helper hi2 hi3 f t hm

/-- Witness for the amended C8: with stale destinations (mtime 2) both
the recorded page and the recorded image are written. -/
theorem static_image_flush_incremental_witness :
    (("p.html", "/cwd/p.html") ∈ staticWrite staleStat sstW)
    ∧ (("img.png", "/cwd/img.png") ∈ imageWrite staleStat istW) := by
  have h := static_image_flush_incremental staleStat sstW istW
    rfl rfl (by decide) rfl rfl (by decide)
  exact ⟨(h.1 "p.html" 5 (by decide)).mpr (by decide),
    (h.2 "img.png" 7 (by decide)).mpr (by decide)⟩

/-- Claim C9: a line starting with '#' is indeed ignored and the
remaining lines parse as whitespace-separated triples, but an empty line
(read as the single newline character) is not skipped: splitting it
yields no fields and unpacking into three variables raises ValueError,
aborting the configuration read. -/
theorem config_empty_line_valueerror :
    siteReadConfig configOkLines = .ok [("a.*", "page.tmpl", "StaticCompositor")]
    ∧ siteReadConfig configEmptyLines = .error "ValueError" :=
  ⟨rfl, rfl⟩

/-- Claim C10: the parser rstrips every line before use, so appending
trailing spaces or tabs to any lines of the input, marker lines
included, leaves the parsed mapping unchanged. -/
theorem parse_rstrip_invariant (ls ss : List String)
    (hlen : ss.length = ls.length)
    (hws : ∀ s ∈ ss, ∀ c ∈ s.data, c = ' ' ∨ c = '\t') :
    readPageSpec (List.zipWith (fun a b => a ++ b) ls ss) = readPageSpec ls :=
  loop_congr_rstrip (forall₂_zipWith_append_ws ls ss hlen hws) [] none []

/-- Witness for C10: appending spaces to a marker line and a tab to a
block line does not change the parse. -/
theorem parse_rstrip_invariant_witness :
    readPageSpec (List.zipWith (fun a b => a ++ b) [":title:", "hi"] ["  ", "\t"])
      = readPageSpec [":title:", "hi"] :=
  parse_rstrip_invariant [":title:", "hi"] ["  ", "\t"] (by decide) (by decide)

end Purple
